import Mathlib

/-!
Verification of the normalization and delivery pipeline of
`send_to_lovable.py` (Pesso99/mercado).

The Python module is shallowly embedded: JSON-like Python values become the
inductive `Val`; dictionaries are association lists with first-key-wins
lookup; Python's truthiness-based `or` chains, `str.strip`, `in`, and
`list.append` are modelled by `pyOr`, `pyStrip`, `pyNotIn`, `pyAppend`, with
Python exceptions surfaced through `Except PyErr`.  The third-party
`dateutil` parser and the wall clock (`datetime.utcnow`) are parameters of
the embedding (`pd`, `now`); `duParse` is a concrete fragment-model of
`dateutil.parser.parse(·, dayfirst=True)` used for concrete evaluations.
Filesystem discovery and the HTTP transport are abstracted at their
interfaces: `load_all_news` receives the (domain, parsed document) pairs it
would have read from disk, and `send_to_lovable` receives an oracle giving
each batch request's outcome.
-/

set_option autoImplicit false

namespace Mercado

/-- A Python value as produced by `json.load`: `None`, booleans, integers,
strings, lists and string-keyed dictionaries. -/
inductive Val where
  | null : Val
  | bool : Bool → Val
  | int : Int → Val
  | str : String → Val
  | list : List Val → Val
  | dict : List (String × Val) → Val
deriving Repr, Inhabited

/-- Python exceptions that `normalize_item` can raise. -/
inductive PyErr where
  | attributeError : PyErr
  | typeError : PyErr
deriving Repr, DecidableEq, Inhabited

mutual
/-- Python `==` on embedded values (including `True == 1`, `False == 0`). -/
def valEqb : Val → Val → Bool
  | .null, .null => true
  | .bool a, .bool b => a == b
  | .int a, .int b => a == b
  | .bool a, .int b => (if a then (1 : Int) else 0) == b
  | .int a, .bool b => a == (if b then (1 : Int) else 0)
  | .str a, .str b => a == b
  | .list a, .list b => valListEqb a b
  | .dict a, .dict b => valDictEqb a b
  | _, _ => false

/-- Elementwise Python `==` on lists. -/
def valListEqb : List Val → List Val → Bool
  | [], [] => true
  | a :: as, b :: bs => valEqb a b && valListEqb as bs
  | _, _ => false

/-- Entrywise Python `==` on dictionaries (order-sensitive model). -/
def valDictEqb : List (String × Val) → List (String × Val) → Bool
  | [], [] => true
  | (k, a) :: as, (l, b) :: bs => k == l && valEqb a b && valDictEqb as bs
  | _, _ => false
end

/-- Python truthiness of a value. -/
def truthy : Val → Bool
  | .null => false
  | .bool b => b
  | .int n => n != 0
  | .str s => s != ""
  | .list l => !l.isEmpty
  | .dict d => !d.isEmpty

/-- Python `a or b`: `a` if truthy, else `b`. -/
def pyOr (a b : Val) : Val := if truthy a then a else b

/-- `item.get(k)`: value of the first entry with key `k`, `None` if absent. -/
def dget (d : List (String × Val)) (k : String) : Val :=
  match d.find? (fun kv => kv.1 == k) with
  | some kv => kv.2
  | none => .null

/-- In-place update `d[k] = v` of the first entry with key `k`
(appended when the key is absent, which the pipeline never needs). -/
def dset : List (String × Val) → String → Val → List (String × Val)
  | [], k, v => [(k, v)]
  | (k', v') :: rest, k, v =>
      if k' = k then (k, v) :: rest else (k', v') :: dset rest k v

/-- A Python whitespace character (the set `str.strip` removes). -/
def pyIsSpace (c : Char) : Bool :=
  c = ' ' || c = '\t' || c = '\n' || c = '\r' || c = '\x0b' || c = '\x0c'

/-- `s.strip()` on a string: drop whitespace from both ends. -/
def pyTrim (s : String) : String :=
  String.mk (((s.data.dropWhile pyIsSpace).reverse.dropWhile pyIsSpace).reverse)

/-- `v.strip()`: trims surrounding whitespace of a string; any other
receiver raises `AttributeError`. -/
def pyStrip : Val → Except PyErr String
  | .str s => .ok (pyTrim s)
  | _ => .error .attributeError

/-- Whether `pat` occurs at the head of `cs`. -/
def leadsWith : List Char → List Char → Bool
  | [], _ => true
  | _ :: _, [] => false
  | a :: pat, b :: cs => a = b && leadsWith pat cs

/-- Whether `pat` occurs anywhere in `cs` (Python `pat in s`). -/
def hasSub (cs pat : List Char) : Bool :=
  match cs with
  | [] => pat.isEmpty
  | _ :: rest => leadsWith pat cs || hasSub rest pat

/-- `c not in t` for the tag container: list membership by Python `==`;
string membership is the substring test; dictionary membership is key
membership (unhashable probes raise `TypeError`); non-container receivers
raise `TypeError`. -/
def pyNotIn (c t : Val) : Except PyErr Bool :=
  match t with
  | .list l => .ok (!l.any (valEqb c))
  | .str s =>
      match c with
      | .str c' => .ok (!hasSub s.data c'.data)
      | _ => .error .typeError
  | .dict d =>
      match c with
      | .str c' => .ok (!d.any (fun kv => kv.1 == c'))
      | .list _ => .error .typeError
      | .dict _ => .error .typeError
      | _ => .ok true
  | _ => .error .typeError

/-- `t.append(c)` on the tag container: only lists support `append`. -/
def pyAppend (t c : Val) : Except PyErr Val :=
  match t with
  | .list l => .ok (.list (l ++ [c]))
  | _ => .error .attributeError

/-- A `datetime` value at second granularity (the pipeline never inspects
finer components of a successfully parsed date). -/
structure DT where
  year : Nat
  month : Nat
  day : Nat
  hour : Nat
  minute : Nat
  second : Nat
deriving Repr, DecidableEq, Inhabited

/-- Left-pad the decimal form of `n` with zeros to width `w`. -/
def padNum (w n : Nat) : String :=
  let s := toString n
  String.mk (List.replicate (w - s.length) '0') ++ s

/-- `dt.isoformat()`: `YYYY-MM-DDTHH:MM:SS`. -/
def isoformat (d : DT) : String :=
  padNum 4 d.year ++ "-" ++ padNum 2 d.month ++ "-" ++ padNum 2 d.day ++ "T"
    ++ padNum 2 d.hour ++ ":" ++ padNum 2 d.minute ++ ":" ++ padNum 2 d.second

/-- Split a character list at every occurrence of `sep` (the pieces, in
order, with separators dropped — `str.split(sep)` for a one-character
separator). -/
def splitCharAux (sep : Char) : List Char → List Char → List String
  | [], acc => [String.mk acc.reverse]
  | c :: cs, acc =>
      if c = sep then String.mk acc.reverse :: splitCharAux sep cs []
      else splitCharAux sep cs (c :: acc)

/-- `s.split(sep)` for a one-character separator. -/
def splitChar (sep : Char) (s : String) : List String :=
  splitCharAux sep s.data []

/-- Decimal value of an all-digit character list. -/
def digitsNatAux : List Char → Nat → Option Nat
  | [], acc => some acc
  | c :: cs, acc =>
      if c.isDigit then digitsNatAux cs (acc * 10 + (c.toNat - '0'.toNat))
      else none

/-- `int(s)` on a non-negative all-digit string, `none` otherwise. -/
def strNat? (s : String) : Option Nat :=
  match s.data with
  | [] => none
  | cs => digitsNatAux cs 0

/-- Fragment model of `dateutil.parser.parse(s, dayfirst=True)`, covering
slash-separated all-numeric day-first dates `D/M/YYYY`; every other input is
treated as unparseable (`none` standing for the raised `ParserError`). -/
def duParse (s : String) : Option DT :=
  match splitChar '/' s with
  | [d, m, y] =>
      match strNat? d, strNat? m, strNat? y with
      | some dd, some mm, some yy =>
          if 1 ≤ dd && dd ≤ 31 && 1 ≤ mm && mm ≤ 12 then
            some ⟨yy, mm, dd, 0, 0, 0⟩
          else none
      | _, _, _ => none
  | _ => none

/-- The canonical record built by `normalize_item` (its `tags` entry is
whatever Python object the `tags` variable ends up holding). -/
structure Canon where
  title : String
  url : String
  published_at : String
  source : String
  text : String
  tags : Val
deriving Repr, Inhabited

/-- Lines 81–86: `(item.get("titulo") or item.get("title") or
item.get("manchete") or "")`. -/
def titleRaw (item : List (String × Val)) : Val :=
  pyOr (dget item "titulo")
    (pyOr (dget item "title") (pyOr (dget item "manchete") (.str "")))

/-- Line 89: `(item.get("url") or item.get("link") or "")`. -/
def urlRaw (item : List (String × Val)) : Val :=
  pyOr (dget item "url") (pyOr (dget item "link") (.str ""))

/-- Lines 92–98: `(item.get("conteudo") or item.get("texto") or
item.get("text") or item.get("resumo") or "")`. -/
def textRaw (item : List (String × Val)) : Val :=
  pyOr (dget item "conteudo")
    (pyOr (dget item "texto")
      (pyOr (dget item "text") (pyOr (dget item "resumo") (.str ""))))

/-- Line 101 then 102–103: `tags = item.get("tags") or []`, then a plain
string is wrapped into a one-element list. -/
def tags1Of (item : List (String × Val)) : Val :=
  match pyOr (dget item "tags") (.list []) with
  | .str s => .list [.str s]
  | v => v

/-- Line 105: `categoria = item.get("categoria") or item.get("category")`. -/
def categoriaOf (item : List (String × Val)) : Val :=
  pyOr (dget item "categoria") (dget item "category")

/-- The `tags` variable of line 101 aliases a list owned by the caller's
record exactly when `item["tags"]` is a truthy list (a falsy one is replaced
by a fresh `[]` on the right of the `or`). -/
def tagsAliased (item : List (String × Val)) : Bool :=
  match dget item "tags" with
  | .list l => !l.isEmpty
  | _ => false

/-- Lines 100–107: compute the final tag container and the record as left
after the possible in-place `tags.append(categoria)`. -/
def tagsStep (item : List (String × Val)) :
    Except PyErr (Val × List (String × Val)) :=
  let tags1 := tags1Of item
  let cat := categoriaOf item
  if truthy cat then do
    let b ← pyNotIn cat tags1
    if b then do
      let t2 ← pyAppend tags1 cat
      .ok (t2, if tagsAliased item then dset item "tags" t2 else item)
    else .ok (tags1, item)
  else .ok (tags1, item)

/-- Lines 110–115: `raw_date = item.get("data_publicacao") or
item.get("data") or item.get("published_at") or item.get("date")`. -/
def rawDateOf (item : List (String × Val)) : Val :=
  pyOr (dget item "data_publicacao")
    (pyOr (dget item "data")
      (pyOr (dget item "published_at") (dget item "date")))

/-- Lines 117–129: the `published_at` computation.  A truthy string date is
fed to the parser (`pd`); parse failure, like the `.isoformat()`
`AttributeError` on a truthy non-string date, is swallowed by the
`except Exception` and replaced by `datetime.utcnow()` (`now`); a falsy
date goes straight to the fallback.  The computation is total: no fault
escapes this block. -/
def pubAtOf (pd : String → Option DT) (now : DT)
    (item : List (String × Val)) : String :=
  let rd := rawDateOf item
  if truthy rd then
    match rd with
    | .str s =>
        match pd s with
        | some d => isoformat d
        | none => isoformat now
    | _ => isoformat now
  else isoformat now

/-- Lines 77–138, `normalize_item(item, source_domain)`.  `pd` stands for
`dateutil.parser.parse(·, dayfirst=True)` and `now` for
`datetime.utcnow()`.  Besides the canonical record, the updated state of
the caller's record (mutated by the in-place tag append, line 107) is
returned. -/
def normalize_item (item : List (String × Val)) (source_domain : String)
    (pd : String → Option DT) (now : DT) :
    Except PyErr (Canon × List (String × Val)) := do
  let title ← pyStrip (titleRaw item)
  let url ← pyStrip (urlRaw item)
  let text ← pyStrip (textRaw item)
  let (tags, item') ← tagsStep item
  let published_at := pubAtOf pd now item'
  .ok ({ title := title, url := url, published_at := published_at,
         source := source_domain, text := text, tags := tags }, item')

/-- Lines 202–208: shape dispatch on the parsed JSON document.
`items = raw_data.get("items") or raw_data.get("news") or [raw_data]` for a
dictionary, the document itself for a list, `[]` for anything else. -/
def extractedItems (raw : Val) : Val :=
  match raw with
  | .list xs => .list xs
  | .dict d => pyOr (dget d "items") (pyOr (dget d "news") (.list [.dict d]))
  | _ => .list []

/-- The sequence over which `for item in items` iterates: elements of a
list, one-character strings of a string, keys of a dictionary; a
non-iterable raises `TypeError` (`none`). -/
def iterElems : Val → Option (List Val)
  | .list xs => some xs
  | .str s => some (s.toList.map (fun c => .str (String.mk [c])))
  | .dict d => some (d.map (fun kv => .str kv.1))
  | _ => none

/-- Lines 210–216 for one source file: each item is normalized and admitted
when both title and url are non-empty.  A non-dictionary item makes
`item.get` raise, and any exception out of `normalize_item` aborts the rest
of this file (caught by the `except Exception` of line 222), keeping what
was already appended. -/
def forItems (pd : String → Option DT) (now : DT) (source_domain : String) :
    List Val → List Canon
  | [] => []
  | .dict d :: rest =>
      match normalize_item d source_domain pd now with
      | .ok (c, _) =>
          (if c.title ≠ "" && c.url ≠ "" then [c] else [])
            ++ forItems pd now source_domain rest
      | .error _ => []
  | _ :: _ => []

/-- One source's contribution to `all_items`: extract, iterate, normalize,
filter.  A non-iterable extraction raises inside the per-file `try` and
contributes nothing. -/
def perSource (pd : String → Option DT) (now : DT) (source_domain : String)
    (doc : Val) : List Canon :=
  match iterElems (extractedItems doc) with
  | some elems => forItems pd now source_domain elems
  | none => []

/-- Lines 166–225, `load_all_news`, with the filesystem discovery
(lines 170–196) abstracted away: `sources` is the list of
(source domain, parsed latest JSON document) pairs in `SOURCE_MAP`
iteration order.  Admitted records are appended to one shared `all_items`
list across sources. -/
def load_all_news (pd : String → Option DT) (now : DT)
    (sources : List (String × Val)) : List Canon :=
  sources.flatMap (fun sd => perSource pd now sd.1 sd.2)

/-- Outcome of one `requests.post` call for a batch: a network-level fault
(`requests.Timeout` / `requests.RequestException`), or an HTTP response
with its status code and, when the body is JSON, the `processed` and
`errors` counts it carries (absent keys default to 0; a non-JSON body is
`none`, treated as `{}`). -/
inductive BatchResp where
  | net_fault : BatchResp
  | http : Nat → Option (Nat × Nat) → BatchResp
deriving Repr, DecidableEq, Inhabited

/-- Worker for `chunks`: `acc` is the current chunk reversed, `k` how many
elements it still accepts. -/
def chunksAux {α : Type} (n : Nat) : List α → List α → Nat → List (List α)
  | [], acc, _ => if acc.isEmpty then [] else [acc.reverse]
  | x :: xs, acc, 0 => acc.reverse :: chunksAux n xs [x] (n - 1)
  | x :: xs, acc, k + 1 => chunksAux n xs (x :: acc) k

/-- `items[i : i + n]` slices of `range(0, len(items), n)`, i.e. contiguous
chunks of size `n` (last one possibly shorter). -/
def chunks {α : Type} (n : Nat) : List α → List (List α)
  | [] => []
  | x :: xs => chunksAux n xs [x] (n - 1)

/-- Result of the batch loop: all batches answered (with the request count
and accumulated `processed`/`errors` totals), or a network fault after
`req` requests were issued. -/
inductive LoopOut where
  | done : Nat → Nat → Nat → LoopOut
  | fault : Nat → LoopOut
deriving Repr, DecidableEq, Inhabited

/-- Lines 254–279: the per-batch delivery loop.  `resp i` is the outcome of
the `i`-th request.  Status 200 adds the body's counts (default 0); any
other status adds the batch size to the error total and continues; a
network fault aborts the loop. -/
def sendLoop (resp : Nat → BatchResp) :
    List (List Canon) → Nat → Nat → Nat → LoopOut
  | [], i, p, e => .done i p e
  | b :: rest, i, p, e =>
      match resp i with
      | .net_fault => .fault (i + 1)
      | .http st body =>
          if st = 200 then
            let pe := body.getD (0, 0)
            sendLoop resp rest (i + 1) (p + pe.1) (e + pe.2)
          else sendLoop resp rest (i + 1) p (e + b.length)

/-- What a run of `send_to_lovable` leaves behind: the returned boolean,
how many batch requests were issued, and the final summary
(total sent, processed, errors) printed in lines 281–284 — `none` when
that print is never reached (missing endpoint, empty input, or the
exception path of lines 288–293). -/
structure SendResult where
  success : Bool
  requestsMade : Nat
  summary : Option (Nat × Nat × Nat)
deriving Repr, DecidableEq, Inhabited

/-- Lines 228–293, `send_to_lovable(items)`.  `endpoint` models
`LOVABLE_ENDPOINT`; the network is the oracle `resp`.  No endpoint fails
immediately; an empty list succeeds trivially; otherwise items go out in
batches of 50 and a network fault ends the run with `False`, discarding
the accumulated totals. -/
def send_to_lovable (endpoint : Option String) (items : List Canon)
    (resp : Nat → BatchResp) : SendResult :=
  match endpoint with
  | none => ⟨false, 0, none⟩
  | some _ =>
      if items.isEmpty then ⟨true, 0, none⟩
      else
        match sendLoop resp (chunks 50 items) 0 0 0 with
        | .done req p e => ⟨true, req, some (items.length, p, e)⟩
        | .fault req => ⟨false, req, none⟩

/-! Spec-side formalizations (written from the claims' wording, for
comparison with the embedded code) and concrete evaluation inputs. -/

/-- Claim C4's title rule, as claimed: the first value in the chain
`titulo`, `title`, `manchete` that is non-empty AFTER trimming. -/
def specTitleClaimed (item : List (String × Val)) : String :=
  match ([dget item "titulo", dget item "title", dget item "manchete"].filterMap
      (fun v =>
        match v with
        | .str s => if pyTrim s ≠ "" then some (pyTrim s) else none
        | _ => none)).head? with
  | some s => s
  | none => ""

/-- Claim C4 amended: the first TRUTHY (pre-trim non-empty) candidate wins
and is then trimmed; a whitespace-only `titulo` is truthy and stops the
chain. -/
def specTitleAmended (item : List (String × Val)) : String :=
  match ([dget item "titulo", dget item "title", dget item "manchete"].filter
      truthy).head? with
  | some (.str s) => pyTrim s
  | some _ => ""
  | none => ""

/-- Claim C5's extraction rule, as claimed: an `items` or `news` key that is
PRESENT wins (first present), whatever its value — including an empty
list. -/
def extractClaimed (raw : Val) : Val :=
  match raw with
  | .list xs => .list xs
  | .dict d =>
      match d.find? (fun kv => kv.1 == "items") with
      | some kv => kv.2
      | none =>
          match d.find? (fun kv => kv.1 == "news") with
          | some kv => kv.2
          | none => .list [.dict d]
  | _ => .list []

/-- Claim C5 amended: the first TRUTHY value among `items`, `news` wins; a
falsy value (such as an empty list) falls through, down to the singleton
wrapping of the mapping itself. -/
def extractAmended (raw : Val) : Val :=
  match raw with
  | .list xs => .list xs
  | .dict d =>
      if truthy (dget d "items") then dget d "items"
      else if truthy (dget d "news") then dget d "news"
      else .list [.dict d]
  | _ => .list []

/-- Spec §4.4's per-batch accounting rule, written from the spec: a
200-status batch contributes its body's counts (default 0), any other
status contributes its size to the error total; `i` is the index of the
first batch. -/
def batchTotals (st : Nat → Nat) (body : Nat → Option (Nat × Nat)) :
    List (List Canon) → Nat → Nat × Nat
  | [], _ => (0, 0)
  | b :: rest, i =>
      let t := batchTotals st body rest (i + 1)
      if st i = 200 then
        (((body i).getD (0, 0)).1 + t.1, ((body i).getD (0, 0)).2 + t.2)
      else (t.1, b.length + t.2)

/-- A fixed "current UTC instant" for concrete runs. -/
def dt0 : DT := ⟨2025, 1, 1, 0, 0, 0⟩

/-- A second, different "current UTC instant". -/
def dt1 : DT := ⟨2025, 6, 15, 12, 30, 45⟩

/-- The raw record of claim C8. -/
def rec8 : List (String × Val) :=
  [("titulo", .str "Ações sobem"), ("link", .str "https://x.com/1"),
   ("data", .str "01/02/2024")]

/-- The canonical record claim C8 expects. -/
def can8 : Canon :=
  ⟨"Ações sobem", "https://x.com/1", "2024-02-01T00:00:00",
   "infomoney.com.br", "", .list []⟩

/-- A one-record document syndicated to two sources (claim C1). -/
def doc1 : Val :=
  .list [.dict [("titulo", .str "Mesma notícia"),
                ("link", .str "https://x.com/1b"),
                ("data", .str "02/03/2024")]]

/-- Two sources yielding the identical record (claim C1). -/
def srcs1 : List (String × Val) :=
  [("infomoney.com.br", doc1), ("moneytimes.com.br", doc1)]

/-- A well-shaped raw record for claim C2's amended theorem. -/
def rec2 : List (String × Val) :=
  [("titulo", .str "t"), ("url", .str "u"), ("texto", .str "body"),
   ("tags", .str "tag1")]

/-- A canonical record to populate delivery batches with. -/
def can0 : Canon := ⟨"t", "u", "2024-02-01T00:00:00", "d", "", .list []⟩

/-- 110 canonical records: three batches of 50, 50, 10 (claim C3). -/
def items110 : List Canon := List.replicate 110 can0

/-- 60 canonical records: two batches of 50, 10. -/
def items60 : List Canon := List.replicate 60 can0

/-- 10 canonical records: a single batch (claim C6). -/
def items10 : List Canon := List.replicate 10 can0

/-- Network oracle: first batch delivered with 50 processed, then the
connection dies (claim C3). -/
def resp3 : Nat → BatchResp :=
  fun i => if i = 0 then .http 200 (some (50, 0)) else .net_fault

/-- Raw record whose `titulo` is whitespace-only while `title` holds real
text (claim C4). -/
def rec4cx : List (String × Val) :=
  [("titulo", .str "   "), ("title", .str "Conteúdo Real"), ("link", .str "u4")]

/-- What `normalize_item` makes of `rec4cx`. -/
def can4cx : Canon := ⟨"", "u4", "2025-01-01T00:00:00", "d", "", .list []⟩

/-- Raw record with an untrimmed `titulo` (claim C4 amended witness). -/
def rec4 : List (String × Val) := [("titulo", .str "  Olá  ")]

/-- What `normalize_item` makes of `rec4`. -/
def can4 : Canon := ⟨"Olá", "", "2025-01-01T00:00:00", "d", "", .list []⟩

/-- Raw record with an unparseable date (claim C7). -/
def item7 : List (String × Val) := [("data", .str "not-a-date")]

/-- What `normalize_item` makes of `item7` at instant `dt0`. -/
def can7 : Canon := ⟨"", "", "2025-01-01T00:00:00", "d", "", .list []⟩

/-- Raw record with a non-empty tag list and a fresh category (claims C9
and C10 exercise this mutating shape on separate copies). -/
def rec9 : List (String × Val) :=
  [("titulo", .str "a"), ("link", .str "u"), ("data", .str "01/02/2024"),
   ("tags", .list [.str "x"]), ("categoria", .str "econ")]

/-- `rec9` as left after the in-place `tags.append("econ")`. -/
def rec9' : List (String × Val) :=
  [("titulo", .str "a"), ("link", .str "u"), ("data", .str "01/02/2024"),
   ("tags", .list [.str "x", .str "econ"]), ("categoria", .str "econ")]

/-- What `normalize_item` makes of `rec9`. -/
def can9 : Canon :=
  ⟨"a", "u", "2024-02-01T00:00:00", "d", "", .list [.str "x", .str "econ"]⟩

/-- Raw record whose `tags` is the EMPTY list (claim C10's boundary). -/
def rec10 : List (String × Val) :=
  [("titulo", .str "a"), ("link", .str "u"), ("tags", .list []),
   ("categoria", .str "econ")]

/-- What `normalize_item` makes of `rec10` at instant `dt0`. -/
def can10 : Canon :=
  ⟨"a", "u", "2025-01-01T00:00:00", "d", "", .list [.str "econ"]⟩

/-- Raw record with a non-empty `tags` list (claim C10 amended witness). -/
def rec10w : List (String × Val) :=
  [("titulo", .str "b"), ("link", .str "v"), ("tags", .list [.str "x"]),
   ("categoria", .str "econ")]

/-- `rec10w` as left after the in-place append. -/
def rec10w' : List (String × Val) :=
  [("titulo", .str "b"), ("link", .str "v"),
   ("tags", .list [.str "x", .str "econ"]), ("categoria", .str "econ")]

/-- What `normalize_item` makes of `rec10w` at instant `dt0`. -/
def can10w : Canon :=
  ⟨"b", "v", "2025-01-01T00:00:00", "d", "", .list [.str "x", .str "econ"]⟩

/-- Status oracle answering HTTP 500 to every batch (claim C6 witness). -/
def st6 : Nat → Nat := fun _ => 500

/-- Body oracle: no JSON body on any response (claim C6 witness). -/
def body6 : Nat → Option (Nat × Nat) := fun _ => none

/-- Network oracle that faults on every request (claim C3 witness). -/
def respF : Nat → BatchResp := fun _ => .net_fault

/-! Helper lemmas. -/

mutual
/-- Python `==` is reflexive on embedded values. -/
theorem valEqb_refl : ∀ (v : Val), valEqb v v = true
  | .null => rfl
  | .bool b => by simp [valEqb]
  | .int n => by simp [valEqb]
  | .str s => by simp [valEqb]
  | .list l => by simpa [valEqb] using valListEqb_refl l
  | .dict d => by simpa [valEqb] using valDictEqb_refl d

/-- Reflexivity of elementwise Python `==` on lists. -/
theorem valListEqb_refl : ∀ (l : List Val), valListEqb l l = true
  | [] => rfl
  | a :: as => by
      simp only [valListEqb, Bool.and_eq_true]
      exact ⟨valEqb_refl a, valListEqb_refl as⟩

/-- Reflexivity of entrywise Python `==` on dictionaries. -/
theorem valDictEqb_refl : ∀ (d : List (String × Val)), valDictEqb d d = true
  | [] => rfl
  | (k, a) :: as => by
      simp only [valDictEqb, Bool.and_eq_true]
      exact ⟨⟨by simp, valEqb_refl a⟩, valDictEqb_refl as⟩
end

/-- Reading back the key just written. -/
theorem dget_dset_self (d : List (String × Val)) (k : String) (v : Val) :
    dget (dset d k v) k = v := by
  induction d with
  | nil => simp [dset, dget]
  | cons kv rest ih =>
      obtain ⟨k', v'⟩ := kv
      by_cases h : k' = k
      · simp [dset, h, dget]
      · simpa [dset, h, dget, List.find?, h] using ih

/-- Writing one key leaves every other key's value unchanged. -/
theorem dget_dset_ne (d : List (String × Val)) (k k' : String) (v : Val)
    (h : k' ≠ k) : dget (dset d k v) k' = dget d k' := by
  induction d with
  | nil => simp [dset, dget, List.find?, Ne.symm h, beq_false_of_ne, Ne.symm h]
  | cons kv rest ih =>
      obtain ⟨k'', v''⟩ := kv
      by_cases hk : k'' = k
      · subst hk
        simp [dset, dget, List.find?, beq_false_of_ne (Ne.symm h)]
      · by_cases hk' : k'' = k'
        · subst hk'
          simp [dset, hk, dget, List.find?]
        · simpa [dset, hk, dget, List.find?, beq_false_of_ne hk'] using ih

/-- The title chain never reads `tags`. -/
theorem titleRaw_dset_tags (item : List (String × Val)) (v : Val) :
    titleRaw (dset item "tags" v) = titleRaw item := by
  unfold titleRaw
  rw [dget_dset_ne _ _ _ _ (by decide), dget_dset_ne _ _ _ _ (by decide),
    dget_dset_ne _ _ _ _ (by decide)]

/-- The url chain never reads `tags`. -/
theorem urlRaw_dset_tags (item : List (String × Val)) (v : Val) :
    urlRaw (dset item "tags" v) = urlRaw item := by
  unfold urlRaw
  rw [dget_dset_ne _ _ _ _ (by decide), dget_dset_ne _ _ _ _ (by decide)]

/-- The text chain never reads `tags`. -/
theorem textRaw_dset_tags (item : List (String × Val)) (v : Val) :
    textRaw (dset item "tags" v) = textRaw item := by
  unfold textRaw
  rw [dget_dset_ne _ _ _ _ (by decide), dget_dset_ne _ _ _ _ (by decide),
    dget_dset_ne _ _ _ _ (by decide), dget_dset_ne _ _ _ _ (by decide)]

/-- The category chain never reads `tags`. -/
theorem categoriaOf_dset_tags (item : List (String × Val)) (v : Val) :
    categoriaOf (dset item "tags" v) = categoriaOf item := by
  unfold categoriaOf
  rw [dget_dset_ne _ _ _ _ (by decide), dget_dset_ne _ _ _ _ (by decide)]

/-- The date chain never reads `tags`. -/
theorem rawDateOf_dset_tags (item : List (String × Val)) (v : Val) :
    rawDateOf (dset item "tags" v) = rawDateOf item := by
  unfold rawDateOf
  rw [dget_dset_ne _ _ _ _ (by decide), dget_dset_ne _ _ _ _ (by decide),
    dget_dset_ne _ _ _ _ (by decide), dget_dset_ne _ _ _ _ (by decide)]

/-- `published_at` only depends on the record through its date chain. -/
theorem pubAtOf_congr (pd : String → Option DT) (now : DT)
    (a b : List (String × Val)) (h : rawDateOf a = rawDateOf b) :
    pubAtOf pd now a = pubAtOf pd now b := by
  unfold pubAtOf
  rw [h]

/-- `.strip()` succeeded exactly on a string receiver. -/
theorem pyStrip_ok (v : Val) (t : String) (h : pyStrip v = .ok t) :
    ∃ s, v = .str s ∧ t = pyTrim s := by
  cases v <;> simp [pyStrip] at h
  exact ⟨_, rfl, h.symm⟩

/-- Monadic bind on an `Except` success. -/
theorem exbind_ok {α β : Type} (a : α) (f : α → Except PyErr β) :
    (Except.ok a >>= f) = f a := rfl

/-- Monadic bind on an `Except` failure. -/
theorem exbind_err {α β : Type} (e : PyErr) (f : α → Except PyErr β) :
    ((Except.error e : Except PyErr α) >>= f) = Except.error e := rfl

/-- What a successful `tagsStep` can have done: either the record is left
untouched, or its truthy `tags` list got the truthy, not-yet-present
category appended in place. -/
theorem tagsStep_spec (item : List (String × Val)) (t : Val)
    (item' : List (String × Val)) (h : tagsStep item = .ok (t, item')) :
    item' = item ∨
      (∃ l, tags1Of item = .list l ∧ truthy (categoriaOf item) = true ∧
        l.any (valEqb (categoriaOf item)) = false ∧
        t = .list (l ++ [categoriaOf item]) ∧ tagsAliased item = true ∧
        item' = dset item "tags" t) := by
  unfold tagsStep at h
  by_cases hc : truthy (categoriaOf item) = true
  · simp only [hc, if_true] at h
    cases hni : pyNotIn (categoriaOf item) (tags1Of item) with
    | error e => simp [hni, exbind_err] at h
    | ok b =>
        simp only [hni, exbind_ok] at h
        cases b with
        | false =>
            simp only [Bool.false_eq_true, if_false] at h
            cases h
            exact Or.inl rfl
        | true =>
            simp only [if_true] at h
            cases happ : pyAppend (tags1Of item) (categoriaOf item) with
            | error e => simp [happ, exbind_err] at h
            | ok t2 =>
                simp only [happ, exbind_ok] at h
                obtain ⟨l, hl, ht2⟩ :
                    ∃ l, tags1Of item = .list l ∧
                      t2 = .list (l ++ [categoriaOf item]) := by
                  unfold pyAppend at happ
                  cases hv : tags1Of item <;> rw [hv] at happ <;>
                    simp_all
                cases h
                by_cases ha : tagsAliased item = true
                · refine Or.inr ⟨l, hl, hc, ?_, ?_, ha, ?_⟩
                  · have : pyNotIn (categoriaOf item) (Val.list l) =
                        .ok (!l.any (valEqb (categoriaOf item))) := rfl
                    rw [hl] at hni
                    rw [this] at hni
                    have := Except.ok.inj hni
                    simpa using this
                  · simpa [ha] using ht2
                  · simp [ha, ht2]
                · simp only [Bool.not_eq_true] at ha
                  simp [ha]
  · simp only [Bool.not_eq_true] at hc
    simp only [hc, Bool.false_eq_true, if_false] at h
    cases h
    exact Or.inl rfl


/-- Running `tagsStep` a second time, on the record as the first run left
it, returns the same tag container and mutates nothing further. -/
theorem tagsStep_idem (item : List (String × Val)) (t : Val)
    (item' : List (String × Val)) (h : tagsStep item = .ok (t, item')) :
    tagsStep item' = .ok (t, item') := by
  rcases tagsStep_spec item t item' h with heq | ⟨l, hl, hc, hany, ht, ha, heq⟩
  · rw [heq] at h ⊢
    exact h
  · subst heq
    subst ht
    have hcat : categoriaOf (dset item "tags"
        (.list (l ++ [categoriaOf item]))) = categoriaOf item :=
      categoriaOf_dset_tags item _
    have htags : dget (dset item "tags"
        (.list (l ++ [categoriaOf item]))) "tags" =
        .list (l ++ [categoriaOf item]) :=
      dget_dset_self item "tags" _
    have htr : truthy (.list (l ++ [categoriaOf item])) = true := by
      simp [truthy]
    have htg1 : tags1Of (dset item "tags"
        (.list (l ++ [categoriaOf item]))) =
        .list (l ++ [categoriaOf item]) := by
      unfold tags1Of
      rw [htags]
      simp [pyOr, htr]
    have hmem : (l ++ [categoriaOf item]).any
        (valEqb (categoriaOf item)) = true := by
      simp [List.any_append, List.any_cons, valEqb_refl]
    unfold tagsStep
    rw [hcat, htg1]
    simp only [hc, if_true]
    have hni : pyNotIn (categoriaOf item) (.list (l ++ [categoriaOf item])) =
        .ok false := by
      simp [pyNotIn, hmem]
    rw [hni, exbind_ok]
    simp

/-- Assembling a successful `normalize_item` run from its pieces.  Note the
date chain is read from the record AFTER the tag mutation, as in the
source. -/
theorem normalize_eq (item : List (String × Val)) (dom : String)
    (pd : String → Option DT) (now : DT) (t u x : String) (tg : Val)
    (item' : List (String × Val))
    (ht : pyStrip (titleRaw item) = .ok t)
    (hu : pyStrip (urlRaw item) = .ok u)
    (hx : pyStrip (textRaw item) = .ok x)
    (hg : tagsStep item = .ok (tg, item')) :
    normalize_item item dom pd now =
      .ok (⟨t, u, pubAtOf pd now item', dom, x, tg⟩, item') := by
  unfold normalize_item
  rw [ht, exbind_ok, hu, exbind_ok, hx, exbind_ok, hg, exbind_ok]

/-- Decomposing a successful `normalize_item` run into its pieces. -/
theorem normalize_inv (item : List (String × Val)) (dom : String)
    (pd : String → Option DT) (now : DT) (c : Canon)
    (r' : List (String × Val))
    (h : normalize_item item dom pd now = .ok (c, r')) :
    pyStrip (titleRaw item) = .ok c.title ∧
    pyStrip (urlRaw item) = .ok c.url ∧
    pyStrip (textRaw item) = .ok c.text ∧
    tagsStep item = .ok (c.tags, r') ∧
    c.published_at = pubAtOf pd now r' ∧ c.source = dom := by
  unfold normalize_item at h
  cases h1 : pyStrip (titleRaw item) with
  | error e => rw [h1, exbind_err] at h; exact absurd h (by simp)
  | ok t =>
      rw [h1, exbind_ok] at h
      cases h2 : pyStrip (urlRaw item) with
      | error e => rw [h2, exbind_err] at h; exact absurd h (by simp)
      | ok u =>
          rw [h2, exbind_ok] at h
          cases h3 : pyStrip (textRaw item) with
          | error e => rw [h3, exbind_err] at h; exact absurd h (by simp)
          | ok x =>
              rw [h3, exbind_ok] at h
              cases h4 : tagsStep item with
              | error e => rw [h4, exbind_err] at h; exact absurd h (by simp)
              | ok p =>
                  obtain ⟨tg, it'⟩ := p
                  rw [h4, exbind_ok] at h
                  simp only [Except.ok.injEq, Prod.mk.injEq] at h
                  obtain ⟨hc, hit⟩ := h
                  subst hit
                  subst hc
                  exact ⟨rfl, rfl, rfl, rfl, rfl, rfl⟩

/-- A truthy string date that parses pins `published_at` to the parsed
instant, independently of the clock. -/
theorem pubAtOf_parse (pd : String → Option DT) (now : DT)
    (item : List (String × Val)) (s : String) (d0 : DT)
    (h : rawDateOf item = .str s) (hs : s ≠ "") (hp : pd s = some d0) :
    pubAtOf pd now item = isoformat d0 := by
  unfold pubAtOf
  rw [h]
  simp [truthy, hs, hp]


/-- A network fault on request `i + k`, after `k` fault-free requests,
aborts the loop right there, with `i + k + 1` requests issued in total and
the accumulated counts discarded. -/
theorem sendLoop_fault (resp : Nat → BatchResp) :
    ∀ (bs : List (List Canon)) (i p e k : Nat), k < bs.length →
      resp (i + k) = .net_fault → (∀ j, j < k → resp (i + j) ≠ .net_fault) →
      sendLoop resp bs i p e = .fault (i + k + 1) := by
  intro bs
  induction bs with
  | nil => intro i p e k hk; exact absurd hk (by simp)
  | cons b rest ih =>
      intro i p e k hk hf hb
      cases k with
      | zero =>
          simp only [Nat.add_zero] at hf
          simp [sendLoop, hf]
      | succ k =>
          have h0 : resp i ≠ .net_fault := by
            have := hb 0 (Nat.succ_pos k)
            simpa using this
          cases hr : resp i with
          | net_fault => exact absurd hr h0
          | http st body =>
              have hf' : resp (i + 1 + k) = .net_fault := by
                rw [show i + 1 + k = i + (k + 1) by omega]
                exact hf
              have hb' : ∀ j, j < k → resp (i + 1 + j) ≠ .net_fault := by
                intro j hj
                rw [show i + 1 + j = i + (j + 1) by omega]
                exact hb (j + 1) (by omega)
              have hk' : k < rest.length := by simpa using hk
              by_cases hst : st = 200
              · subst hst
                simp only [sendLoop, hr, if_true]
                rw [ih (i + 1) _ _ k hk' hf' hb']
                congr 1
                omega
              · simp only [sendLoop, hr, if_neg hst]
                rw [ih (i + 1) _ _ k hk' hf' hb']
                congr 1
                omega

/-- A fault-free run answers every batch: the loop ends with one request
per batch and the totals given by the per-batch accounting rule. -/
theorem sendLoop_http (st : Nat → Nat) (body : Nat → Option (Nat × Nat)) :
    ∀ (bs : List (List Canon)) (i p e : Nat),
      sendLoop (fun j => .http (st j) (body j)) bs i p e =
        .done (i + bs.length) (p + (batchTotals st body bs i).1)
          (e + (batchTotals st body bs i).2) := by
  intro bs
  induction bs with
  | nil => intro i p e; simp [sendLoop, batchTotals]
  | cons b rest ih =>
      intro i p e
      by_cases hst : st i = 200
      · simp only [sendLoop, hst, if_true, batchTotals, List.length_cons]
        rw [ih (i + 1)]
        simp only [LoopOut.done.injEq]
        exact ⟨by omega, by omega, by omega⟩
      · simp only [sendLoop, batchTotals, List.length_cons, if_neg hst]
        rw [ih (i + 1)]
        simp only [LoopOut.done.injEq]
        exact ⟨by omega, trivial, Nat.add_assoc e b.length _⟩


/-- A list-shaped tag container makes `tagsStep` fault-free. -/
theorem tagsStep_ok_of_list (item : List (String × Val)) (l : List Val)
    (hl : tags1Of item = .list l) :
    ∃ t it', tagsStep item = .ok (t, it') := by
  simp only [tagsStep, hl]
  split
  · simp only [pyNotIn, exbind_ok]
    split
    · simp only [pyAppend, exbind_ok]
      exact ⟨_, _, rfl⟩
    · exact ⟨_, _, rfl⟩
  · exact ⟨_, _, rfl⟩

/-- When the title chain selected the string `s`, the amended spec-side
title rule yields the trim of `s`. -/
theorem titleRaw_eq_spec (item : List (String × Val)) (s : String)
    (hs : titleRaw item = .str s) : specTitleAmended item = pyTrim s := by
  unfold titleRaw pyOr at hs
  by_cases h1 : truthy (dget item "titulo") = true
  · rw [if_pos h1] at hs
    have hts : truthy (Val.str s) = true := hs ▸ h1
    simp [specTitleAmended, List.filter_cons, h1, hs, hts]
  · rw [if_neg h1] at hs
    have hf1 : truthy (dget item "titulo") = false := by
      simpa using h1
    by_cases h2 : truthy (dget item "title") = true
    · rw [if_pos h2] at hs
      have hts : truthy (Val.str s) = true := hs ▸ h2
      simp [specTitleAmended, List.filter_cons, hf1, h2, hs, hts]
    · rw [if_neg h2] at hs
      have hf2 : truthy (dget item "title") = false := by
        simpa using h2
      by_cases h3 : truthy (dget item "manchete") = true
      · rw [if_pos h3] at hs
        have hts : truthy (Val.str s) = true := hs ▸ h3
        simp [specTitleAmended, List.filter_cons, hf1, hf2, h3, hs, hts]
      · rw [if_neg h3] at hs
        have hf3 : truthy (dget item "manchete") = false := by
          simpa using h3
        have hs' : s = "" := by
          cases hs
          rfl
        subst hs'
        simp [specTitleAmended, List.filter_cons, hf1, hf2, hf3]
        decide

/-! Claim theorems. -/

/-- Claim C1 (counterexample): two sources syndicating the same record with
the same url both reach the assembler's output — `load_all_news` performs
no deduplication by url, so the output holds two records with that url,
not exactly one. -/
theorem C1_cx :
    ((load_all_news duParse dt0 srcs1).filter
        (fun c => c.url == "https://x.com/1b")).length = 2 ∧
    ((load_all_news duParse dt0 srcs1).filter
        (fun c => c.url == "https://x.com/1b")).length ≠ 1 := by
  have h2 : ((load_all_news duParse dt0 srcs1).filter
      (fun c => c.url == "https://x.com/1b")).length = 2 := rfl
  exact ⟨h2, by omega⟩

/-- Claim C1 (amended): `load_all_news` applies no deduplication at all:
for every url, the number of admitted records carrying it in the output is
the sum over the sources of the records each contributes with that url —
later duplicates are kept, in source-iteration then within-source order. -/
theorem C1_amended_no_dedup (pd : String → Option DT) (now : DT)
    (sources : List (String × Val)) (u : String) :
    ((load_all_news pd now sources).filter (fun c => c.url == u)).length =
      (sources.map (fun sd =>
        ((perSource pd now sd.1 sd.2).filter
          (fun c => c.url == u)).length)).sum := by
  induction sources with
  | nil => rfl
  | cons sd rest ih =>
      have hsplit : load_all_news pd now (sd :: rest) =
          perSource pd now sd.1 sd.2 ++ load_all_news pd now rest := rfl
      rw [hsplit, List.filter_append, List.length_append, List.map_cons,
        List.sum_cons, ih]

/-- Claim C2 (counterexample): a raw record whose `titulo` holds a number
makes `normalize_item` raise `AttributeError` (`.strip()` on an `int`),
so `normalize_item` is not exception-free on arbitrary raw records. -/
theorem C2_cx :
    normalize_item [("titulo", .int 5)] "x" duParse dt0 =
      .error .attributeError := rfl

/-- Claim C2 (amended): `normalize_item` returns a canonical record without
raising whenever each selected title/url/text chain value is a string and
the tag container resolves to a list (`tags` absent, falsy, a string, or a
list); outside those shapes it can raise. -/
theorem C2_amended_total (item : List (String × Val)) (dom : String)
    (pd : String → Option DT) (now : DT)
    (ht : ∃ s, titleRaw item = .str s) (hu : ∃ s, urlRaw item = .str s)
    (hx : ∃ s, textRaw item = .str s) (hg : ∃ l, tags1Of item = .list l) :
    ∃ out, normalize_item item dom pd now = .ok out := by
  obtain ⟨ts, hts⟩ := ht
  obtain ⟨us, hus⟩ := hu
  obtain ⟨xs, hxs⟩ := hx
  obtain ⟨l, hl⟩ := hg
  obtain ⟨t, it', hstep⟩ := tagsStep_ok_of_list item l hl
  exact ⟨_, normalize_eq item dom pd now (pyTrim ts) (pyTrim us) (pyTrim xs)
    t it' (by rw [hts]; rfl) (by rw [hus]; rfl) (by rw [hxs]; rfl) hstep⟩

/-- Claim C2 (witness): a well-shaped record normalizes successfully. -/
theorem C2_amended_witness :
    ∃ out, normalize_item rec2 "d" duParse dt0 = .ok out :=
  C2_amended_total rec2 "d" duParse dt0 ⟨"t", rfl⟩ ⟨"u", rfl⟩ ⟨"body", rfl⟩
    ⟨[.str "tag1"], rfl⟩

/-- Claim C3 (counterexample): 110 records go out in batches of 50/50/10;
the first batch is delivered (50 processed), the second hits a network
fault.  The call returns only `False`: the loop stops (2 of 3 requests
made) and the accumulated counts are discarded — the summary is never
produced, so no totals are returned to the caller. -/
theorem C3_cx : send_to_lovable (some "e") items110 resp3 =
    ⟨false, 2, none⟩ := rfl

/-- Claim C3 (amended): on the first network-level fault `send_to_lovable`
reports failure as a bare boolean and attempts no further batches, but the
counts accumulated from the already-sent batches are discarded, not
returned: the totals summary only exists on fault-free runs. -/
theorem C3_amended_fault (e : String) (items : List Canon)
    (resp : Nat → BatchResp) (k : Nat) (hne : items.isEmpty = false)
    (hk : k < (chunks 50 items).length) (hf : resp k = .net_fault)
    (hb : ∀ j, j < k → resp j ≠ .net_fault) :
    send_to_lovable (some e) items resp = ⟨false, k + 1, none⟩ := by
  simp only [send_to_lovable, hne, Bool.false_eq_true, if_false]
  rw [sendLoop_fault resp (chunks 50 items) 0 0 0 k hk (by simpa using hf)
    (by intro j hj; simpa using hb j hj)]
  simp

/-- Claim C3 (witness): a fault on the very first batch yields failure,
one request, no summary. -/
theorem C3_amended_witness :
    send_to_lovable (some "e") items60 respF = ⟨false, 1, none⟩ := by
  have h := C3_amended_fault "e" items60 respF 0 rfl (by decide) rfl
    (fun j hj => absurd hj (Nat.not_lt_zero j))
  simpa using h

/-- Claim C4 (counterexample): a whitespace-only `titulo` is truthy, so the
`or` chain stops there BEFORE trimming: the canonical title is the empty
string, not the trimmed `title` field "Conteúdo Real" the claim's
first-non-empty-after-trimming rule demands. -/
theorem C4_cx :
    normalize_item rec4cx "d" duParse dt0 = .ok (can4cx, rec4cx) ∧
    specTitleClaimed rec4cx = "Conteúdo Real" ∧
    can4cx.title ≠ "Conteúdo Real" :=
  ⟨rfl, rfl, by decide⟩

/-- Claim C4 (amended): the canonical title is the trim of the first TRUTHY
(non-empty before trimming) value in the chain `titulo`, `title`,
`manchete`, and empty if none is truthy; a whitespace-only `titulo` is
truthy, stops the chain, and trims to the empty title. -/
theorem C4_amended_title (item : List (String × Val)) (dom : String)
    (pd : String → Option DT) (now : DT) (c : Canon)
    (r' : List (String × Val))
    (h : normalize_item item dom pd now = .ok (c, r')) :
    c.title = specTitleAmended item := by
  obtain ⟨ht, -, -, -, -, -⟩ := normalize_inv item dom pd now c r' h
  obtain ⟨s, hs, hteq⟩ := pyStrip_ok _ _ ht
  rw [hteq, titleRaw_eq_spec item s hs]

/-- Claim C4 (witness): an untrimmed `titulo` normalizes to its trim, in
agreement with the amended chain rule. -/
theorem C4_amended_witness : can4.title = specTitleAmended rec4 :=
  C4_amended_title rec4 "d" duParse dt0 can4 rec4 rfl

/-- Claim C5 (counterexample): a mapping whose `items` key holds the empty
list does NOT extract to that empty list: the falsy value falls through the
`or` chain and the whole mapping is wrapped as a single record, contrary to
the claim's "including when that value is an empty list". -/
theorem C5_cx :
    extractedItems (.dict [("items", .list [])]) ≠
      extractClaimed (.dict [("items", .list [])]) := by
  intro h
  have h1 : extractedItems (.dict [("items", .list [])]) =
      .list [.dict [("items", .list [])]] := rfl
  have h2 : extractClaimed (.dict [("items", .list [])]) = .list [] := rfl
  rw [h1, h2] at h
  simp at h

/-- Claim C5 (amended): extraction takes a list document as is; on a
mapping the first TRUTHY value among `items`, `news` wins — a falsy value
such as an empty list falls through — and if neither is truthy the mapping
itself is wrapped as the single record; any other document shape yields the
empty sequence. -/
theorem C5_amended_extraction (v : Val) :
    extractedItems v = extractAmended v := by
  cases v <;> simp [extractedItems, extractAmended, pyOr]

/-- Claim C6: when every batch request gets an HTTP response (no network
fault), the run reports success regardless of statuses, one request per
batch is issued, and the totals follow the per-batch rule: a 200 response
contributes its body's counts, any other status adds the whole batch size
to the error total and delivery continues. -/
theorem C6_http_error_counts (e : String) (items : List Canon)
    (st : Nat → Nat) (body : Nat → Option (Nat × Nat))
    (hne : items.isEmpty = false) :
    send_to_lovable (some e) items (fun i => .http (st i) (body i)) =
      ⟨true, (chunks 50 items).length,
        some (items.length, (batchTotals st body (chunks 50 items) 0).1,
          (batchTotals st body (chunks 50 items) 0).2)⟩ := by
  simp only [send_to_lovable, hne, Bool.false_eq_true, if_false]
  rw [sendLoop_http st body (chunks 50 items) 0 0 0]
  simp

/-- Claim C6 (witness): one batch of 10 records answered HTTP 500 yields
success, errors total 10, processed 0. -/
theorem C6_witness :
    send_to_lovable (some "e") items10 (fun i => .http (st6 i) (body6 i)) =
      ⟨true, 1, some (10, 0, 10)⟩ := by
  have h := C6_http_error_counts "e" items10 st6 body6 rfl
  exact h.trans (by rfl)

/-- Claim C7: an absent (falsy) or unparseable string date makes
`published_at` the ISO form of the current UTC instant; the computation is
total — the parse fault is absorbed inside the date block and never reaches
the caller of `normalize_item`. -/
theorem C7_date_fallback (item : List (String × Val)) (dom : String)
    (pd : String → Option DT) (now : DT)
    (h : truthy (rawDateOf item) = false ∨
      ∃ s, rawDateOf item = .str s ∧ pd s = none) :
    pubAtOf pd now item = isoformat now ∧
    ∀ c r', normalize_item item dom pd now = .ok (c, r') →
      c.published_at = isoformat now := by
  have key : ∀ it2 : List (String × Val), rawDateOf it2 = rawDateOf item →
      pubAtOf pd now it2 = isoformat now := by
    intro it2 h2
    simp only [pubAtOf]
    rw [h2]
    rcases h with hf | ⟨s, hs, hp⟩
    · rw [hf]
      simp
    · rw [hs]
      by_cases hse : s = ""
      · subst hse
        simp [truthy]
      · simp [truthy, hse, hp]
  refine ⟨key item rfl, ?_⟩
  intro c r' hn
  obtain ⟨-, -, -, hg, hpub, -⟩ := normalize_inv item dom pd now c r' hn
  rcases tagsStep_spec item c.tags r' hg with heq | ⟨l, -, -, -, -, -, heq⟩
  · rw [hpub, heq]
    exact key item rfl
  · rw [hpub, heq]
    exact key _ (rawDateOf_dset_tags item _)

/-- Claim C7 (witness): the record with date "not-a-date" falls back to the
clock instant. -/
theorem C7_witness :
    pubAtOf duParse dt0 item7 = isoformat dt0 ∧
    can7.published_at = isoformat dt0 := by
  have h := C7_date_fallback item7 "d" duParse dt0
    (Or.inr ⟨"not-a-date", rfl, rfl⟩)
  exact ⟨h.1, h.2 can7 item7 rfl⟩

/-- Claim C8: the example record normalizes exactly as the claim states,
for any clock instant: the slash date is parsed day-first, so "01/02/2024"
becomes February 1st, and the untouched input record is left unchanged. -/
theorem C8_example (now : DT) :
    normalize_item rec8 "infomoney.com.br" duParse now = .ok (can8, rec8) :=
  rfl

/-- Claim C9: renormalizing the record a first run left behind (same source
domain, arbitrary later clock) succeeds and returns the same canonical
record except for a recomputed `published_at`, mutating nothing further;
and when the first run's date actually parsed, `published_at` is identical
too — only the now-fallback case can differ. -/
theorem C9_idempotent (item : List (String × Val)) (dom : String)
    (pd : String → Option DT) (now1 now2 : DT) (c1 : Canon)
    (r1 : List (String × Val))
    (h1 : normalize_item item dom pd now1 = .ok (c1, r1)) :
    normalize_item r1 dom pd now2 =
      .ok ({ c1 with published_at := pubAtOf pd now2 r1 }, r1) ∧
    ((∃ s d0, rawDateOf item = .str s ∧ s ≠ "" ∧ pd s = some d0) →
      pubAtOf pd now2 r1 = c1.published_at) := by
  obtain ⟨ht, hu, hx, hg, hpub, hsrc⟩ := normalize_inv item dom pd now1 c1 r1 h1
  have hidem := tagsStep_idem item c1.tags r1 hg
  have hraw : rawDateOf r1 = rawDateOf item := by
    rcases tagsStep_spec item c1.tags r1 hg with heq | ⟨l, -, -, -, -, -, heq⟩
    · rw [heq]
    · rw [heq]
      exact rawDateOf_dset_tags item _
  have htR : pyStrip (titleRaw r1) = .ok c1.title := by
    rcases tagsStep_spec item c1.tags r1 hg with heq | ⟨l, -, -, -, -, -, heq⟩
    · rw [heq]; exact ht
    · rw [heq, titleRaw_dset_tags]; exact ht
  have huR : pyStrip (urlRaw r1) = .ok c1.url := by
    rcases tagsStep_spec item c1.tags r1 hg with heq | ⟨l, -, -, -, -, -, heq⟩
    · rw [heq]; exact hu
    · rw [heq, urlRaw_dset_tags]; exact hu
  have hxR : pyStrip (textRaw r1) = .ok c1.text := by
    rcases tagsStep_spec item c1.tags r1 hg with heq | ⟨l, -, -, -, -, -, heq⟩
    · rw [heq]; exact hx
    · rw [heq, textRaw_dset_tags]; exact hx
  subst hsrc
  constructor
  · rw [normalize_eq r1 c1.source pd now2 c1.title c1.url c1.text c1.tags r1
      htR huR hxR hidem]
  · rintro ⟨s, d0, hsd, hse, hpd⟩
    rw [hpub, pubAtOf_parse pd now2 r1 s d0 (hraw.trans hsd) hse hpd,
      pubAtOf_parse pd now1 r1 s d0 (hraw.trans hsd) hse hpd]

/-- Claim C9 (witness): renormalizing the mutated record of a first run
(whose date parses) reproduces the identical canonical record at a
different clock instant. -/
theorem C9_witness :
    normalize_item rec9' "d" duParse dt1 = .ok (can9, rec9') := by
  have h := C9_idempotent rec9 "d" duParse dt0 dt1 can9 rec9' rfl
  exact h.1.trans (by rfl)

/-- Claim C10 (counterexample): with `tags` equal to the EMPTY list and a
fresh category, `normalize_item` does NOT mutate the caller's record — the
falsy empty list is replaced by a fresh list by `or []`, the append lands
in that fresh list, the input's `tags` is still `[]`, and the returned tags
is not the caller's list. -/
theorem C10_cx :
    normalize_item rec10 "d" duParse dt0 = .ok (can10, rec10) ∧
    dget rec10 "tags" = .list [] ∧
    can10.tags = .list [.str "econ"] := ⟨rfl, rfl, rfl⟩

/-- Claim C10 (amended): when the input's `tags` is a NON-EMPTY list and a
truthy category not already in it is present, the category is appended to
the caller's own list in place: the record's `tags` entry is updated, the
returned canonical `tags` is that same updated list, and every other key of
the input is left unchanged. -/
theorem C10_amended_mutation (item : List (String × Val)) (dom : String)
    (pd : String → Option DT) (now : DT) (l : List Val) (c : Canon)
    (r' : List (String × Val))
    (htags : dget item "tags" = .list l) (hne : l.isEmpty = false)
    (hcat : truthy (categoriaOf item) = true)
    (hnotin : l.any (valEqb (categoriaOf item)) = false)
    (h : normalize_item item dom pd now = .ok (c, r')) :
    r' = dset item "tags" (.list (l ++ [categoriaOf item])) ∧
    c.tags = .list (l ++ [categoriaOf item]) ∧
    ∀ k, k ≠ "tags" → dget r' k = dget item k := by
  obtain ⟨-, -, -, hg, -, -⟩ := normalize_inv item dom pd now c r' h
  have htr : truthy (.list l) = true := by simp [truthy, hne]
  have h1 : tags1Of item = .list l := by
    simp only [tags1Of, htags, pyOr, htr, if_true]
  have ha : tagsAliased item = true := by
    simp [tagsAliased, htags, hne]
  have hstep : tagsStep item =
      .ok (.list (l ++ [categoriaOf item]),
        dset item "tags" (.list (l ++ [categoriaOf item]))) := by
    simp only [tagsStep, h1, hcat, if_true, pyNotIn, exbind_ok, hnotin,
      Bool.not_false, pyAppend, ha]
  have hco := hstep.symm.trans hg
  simp only [Except.ok.injEq, Prod.mk.injEq] at hco
  obtain ⟨hct, hr⟩ := hco
  refine ⟨hr.symm, hct.symm, ?_⟩
  intro k hk
  rw [hr.symm]
  exact dget_dset_ne item "tags" k _ hk

/-- Claim C10 (witness): a record with tag list ["x"] and category "econ"
comes back with the input's list updated in place to ["x", "econ"], that
same list as the canonical tags, and the other keys untouched. -/
theorem C10_amended_witness :
    rec10w' = dset rec10w "tags" (.list [.str "x", .str "econ"]) ∧
    can10w.tags = .list [.str "x", .str "econ"] ∧
    dget rec10w' "titulo" = dget rec10w "titulo" := by
  have h := C10_amended_mutation rec10w "d" duParse dt0 [.str "x"] can10w
    rec10w' rfl rfl rfl rfl rfl
  exact ⟨h.1, h.2.1, h.2.2 "titulo" (by decide)⟩

end Mercado
